import Mathlib

/-!
# Verification of the information-gain core of `InfoGain_Computation.ipynb`

This file embeds, in Lean, the two functions that form the core of the
repository: `compute_impurity` (cell 23 of the notebook) and
`comp_feature_information_gain` (cell 31), together with the 7-row
vegetation dataset the notebook evaluates them on, and proves or refutes
the specification's claims about them.

Modelling conventions:
* A pandas `Series` of labels is a `List Label` (`Label := String`; the
  boolean values of the `stream` column are rendered as the strings
  `"True"`/`"False"`, exactly as pandas prints them).
* A `DataFrame` is a `List Row` where a `Row` maps attribute names to
  values (`List (String × String)`, one entry per column).
* Python floats are modelled as real numbers; `round(x, 3)` is modelled
  by `round3`, rounding to the nearest multiple of `1/1000` (Python uses
  round-half-to-even on binary floats; the two conventions agree except
  at exact `.0005` ties, which occur in none of the inputs evaluated
  here, so the choice is immaterial to every statement below).
* A Python function that can raise becomes a function into
  `Except PyErr _`; the only exception the source can raise is
  `ValueError('Unknown impurity criterion')`, and exceptions propagate
  through callers exactly as the `match`es below propagate `.error`.
* `pandas.Series.value_counts(normalize=True)` returns the relative
  frequency of each distinct label.  pandas orders the result by
  descending count; every use in the source immediately aggregates it by
  an order-independent sum (`np.sum`), so we keep the labels in first
  appearance order instead, which is also the order
  `pandas.Series.unique()` produces for the partition loop.
-/

/-- Attribute values / class labels (pandas object dtype). -/
abbrev Label := String

/-- One row of a pandas `DataFrame`: attribute name ↦ value. -/
abbrev Row := List (String × String)

/-- The Python exceptions the notebook's core can raise.
`compute_impurity` raises `ValueError('Unknown impurity criterion')` on an
unsupported criterion; no other `raise` occurs in the two functions. -/
inductive PyErr where
  | valueError (msg : String)
deriving DecidableEq

/-- `round(x, 3)`: round to the nearest thousandth.  (Mathlib's `round`
rounds half up; Python rounds half to even — the difference only shows at
exact ties, see the header comment.) -/
noncomputable def round3 (x : ℝ) : ℝ := (round (1000 * x) : ℤ) / 1000

/-- Distinct elements of a list in first appearance order, accumulating
already-seen elements; models `pandas.Series.unique()`. -/
def uniqueAux (seen : List Label) : List Label → List Label
  | [] => []
  | x :: xs => if x ∈ seen then uniqueAux seen xs else x :: uniqueAux (x :: seen) xs

/-- `pandas.Series.unique()`: distinct values in first appearance order. -/
def unique (l : List Label) : List Label := uniqueAux [] l

/-- `feature.value_counts()`: each distinct label with its number of
occurrences (see the header comment on ordering). -/
def value_counts (feature : List Label) : List (Label × Nat) :=
  (unique feature).map (fun v => (v, feature.count v))

/-- Source, notebook cell 23:

```python
def compute_impurity(feature, impurity_criterion):
    probs = feature.value_counts(normalize=True)
    if impurity_criterion == 'entropy':
        impurity = -1 * np.sum(np.log2(probs) * probs)
    elif impurity_criterion == 'gini':
        impurity = 1 - np.sum(np.square(probs))
    else:
        raise ValueError('Unknown impurity criterion')
    return(round(impurity, 3))
```

`np.log2` is `Real.logb 2`; `normalize=True` divides each count by the
length of the series. -/
noncomputable def compute_impurity (feature : List Label)
    (impurity_criterion : String) : Except PyErr ℝ :=
  let probs : List ℝ :=
    (value_counts feature).map (fun vc => (vc.2 : ℝ) / (feature.length : ℝ))
  if impurity_criterion = "entropy" then
    .ok (round3 (-1 * (probs.map (fun p => Real.logb 2 p * p)).sum))
  else if impurity_criterion = "gini" then
    .ok (round3 (1 - (probs.map (fun p => p ^ 2)).sum))
  else
    .error (.valueError "Unknown impurity criterion")

/-- The spec's entropy `-Σ p_i * log2(p_i)` over the distribution obtained
by counting each distinct label and dividing by the sequence length,
written independently of `value_counts` (sum over the finite set of
distinct labels).  Used to compare the source against the spec's words. -/
noncomputable def specEntropy (feature : List Label) : ℝ :=
  -∑ v ∈ feature.toFinset,
      ((feature.count v : ℝ) / (feature.length : ℝ)) *
        Real.logb 2 ((feature.count v : ℝ) / (feature.length : ℝ))

/-- The spec's Gini index `1 - Σ p_i^2` over the same distribution. -/
noncomputable def specGini (feature : List Label) : ℝ :=
  1 - ∑ v ∈ feature.toFinset,
      ((feature.count v : ℝ) / (feature.length : ℝ)) ^ 2

/-- The spec-side impurity for a given criterion string (only used with
`"entropy"` or `"gini"`). -/
noncomputable def specImpurity (crit : String) (feature : List Label) : ℝ :=
  if crit = "entropy" then specEntropy feature else specGini feature

/-- `df[a]`: the column of attribute `a`.  Rows are well-formed mappings;
for rows that do contain `a` (the only case the claims exercise) the
lookup succeeds, and the column lists the values in row order. -/
def col (df : List Row) (a : String) : List String :=
  df.filterMap (fun r => r.lookup a)

/-- `df[df[desc] == level]`: the rows whose `desc` attribute equals
`level`. -/
def partitionOf (df : List Row) (desc : String) (level : Label) : List Row :=
  df.filter (fun r => r.lookup desc == some level)

/-- The `for level in df[descriptive_feature].unique():` loop body of
`comp_feature_information_gain` (cell 31): for each level it computes the
partition, the partition's target impurity, and the partition's weight,
appending

```python
        entropy_list.append(round(entropy_level, 3))
        weight_list.append(round(weight_level, 3))
```

the pair to the two lists (kept here as one list of pairs; an exception
raised by `compute_impurity` aborts the loop and propagates). -/
noncomputable def partitionStats (df : List Row) (target desc crit : String) :
    List Label → Except PyErr (List (ℝ × ℝ))
  | [] => .ok []
  | level :: rest =>
    match compute_impurity (col (partitionOf df desc level) target) crit with
    | .error e => .error e
    | .ok entropy_level =>
      match partitionStats df target desc crit rest with
      | .error e => .error e
      | .ok tail =>
        .ok ((round3 entropy_level,
              round3 (((partitionOf df desc level).length : ℝ) / (df.length : ℝ))) :: tail)

/-- Source, notebook cell 31 (print statements omitted — they do not
affect the returned value; see `compGainTrace` for what they display):

```python
def comp_feature_information_gain(df, target, descriptive_feature, split_criterion):
    target_entropy = compute_impurity(df[target], split_criterion)
    entropy_list = list()
    weight_list = list()
    for level in df[descriptive_feature].unique():
        df_feature_level = df[df[descriptive_feature] == level]
        entropy_level = compute_impurity(df_feature_level[target], split_criterion)
        entropy_list.append(round(entropy_level, 3))
        weight_level = len(df_feature_level) / len(df)
        weight_list.append(round(weight_level, 3))
    feature_remaining_impurity = np.sum(np.array(entropy_list) * np.array(weight_list))
    information_gain = target_entropy - feature_remaining_impurity
    return(information_gain)
```
-/
noncomputable def comp_feature_information_gain (df : List Row)
    (target descriptive_feature split_criterion : String) : Except PyErr ℝ :=
  match compute_impurity (col df target) split_criterion with
  | .error e => .error e
  | .ok target_entropy =>
    match partitionStats df target descriptive_feature split_criterion
        (unique (col df descriptive_feature)) with
    | .error e => .error e
    | .ok stats =>
      .ok (target_entropy - (stats.map (fun s => s.1 * s.2)).sum)

/-- Every intermediate value `comp_feature_information_gain` computes (and
prints): the target impurity, the per-level partition impurities and
weights in loop order, the remaining impurity, and the gain.  Only
`information_gain` is returned by the source function. -/
structure GainTrace where
  target_impurity : ℝ
  impurity_list : List ℝ
  weight_list : List ℝ
  remaining_impurity : ℝ
  information_gain : ℝ

/-- The same computation as `comp_feature_information_gain`, retaining all
the intermediate values the source computes and prints. -/
noncomputable def compGainTrace (df : List Row)
    (target descriptive_feature split_criterion : String) : Except PyErr GainTrace :=
  match compute_impurity (col df target) split_criterion with
  | .error e => .error e
  | .ok target_entropy =>
    match partitionStats df target descriptive_feature split_criterion
        (unique (col df descriptive_feature)) with
    | .error e => .error e
    | .ok stats =>
      .ok { target_impurity := target_entropy
            impurity_list := stats.map Prod.fst
            weight_list := stats.map Prod.snd
            remaining_impurity := (stats.map (fun s => s.1 * s.2)).sum
            information_gain :=
              target_entropy - (stats.map (fun s => s.1 * s.2)).sum }

/-- The remaining impurity as the source computes it: partition impurities
(3-decimal-rounded by `compute_impurity`, rounded again — a no-op — by the
loop) times 3-decimal-rounded weights, summed over the distinct levels of
the descriptive attribute. -/
noncomputable def remainingRounded (df : List Row) (t d crit : String) : ℝ :=
  ((unique (col df d)).map (fun ℓ =>
      round3 (specImpurity crit (col (partitionOf df d ℓ) t)) *
        round3 (((partitionOf df d ℓ).length : ℝ) / (df.length : ℝ)))).sum

/-- The remaining impurity as claim C2's words describe it: the partition
impurity (the rounded value `compute_impurity` returns) times the exact,
unrounded weight `|partition| / |dataset|`.  This follows the claim's
words, not the source, and is compared against the source's behaviour. -/
noncomputable def remainingExactWeights (df : List Row) (t d crit : String) : ℝ :=
  ((unique (col df d)).map (fun ℓ =>
      round3 (specImpurity crit (col (partitionOf df d ℓ) t)) *
        (((partitionOf df d ℓ).length : ℝ) / (df.length : ℝ)))).sum

/-- `x ≈ c` with the tolerance the spec's 3-decimal figures carry: within
one unit in the last (third) decimal place. -/
def approx3 (x c : ℝ) : Prop := |x - c| < 1 / 1000

/-- The 7-row vegetation dataset of the notebook (FMLPDA Table 4.3),
rows exactly as loaded in cell 21. -/
def vegDF : List Row :=
  [[("stream", "False"), ("slope", "steep"), ("elevation", "high"), ("vegetation", "chapparal")],
   [("stream", "True"), ("slope", "moderate"), ("elevation", "low"), ("vegetation", "riparian")],
   [("stream", "True"), ("slope", "steep"), ("elevation", "medium"), ("vegetation", "riparian")],
   [("stream", "False"), ("slope", "steep"), ("elevation", "medium"), ("vegetation", "chapparal")],
   [("stream", "False"), ("slope", "flat"), ("elevation", "high"), ("vegetation", "conifer")],
   [("stream", "True"), ("slope", "steep"), ("elevation", "highest"), ("vegetation", "conifer")],
   [("stream", "True"), ("slope", "steep"), ("elevation", "high"), ("vegetation", "chapparal")]]

/-- A 3-row dataset whose `"d"`-partition of level `"x"` has weight `2/3`,
whose 3-decimal rounding `0.667` differs from the exact value. -/
def dfC2 : List Row :=
  [[("d", "x"), ("t", "a")], [("d", "x"), ("t", "b")], [("d", "y"), ("t", "a")]]

/-- One row: a single `"d"`-partition of weight `1`. -/
def dfOne : List Row := [[("d", "x"), ("t", "a")]]

/-- Two rows with the same target but two `"d"`-levels of weight `1/2`. -/
def dfTwo : List Row := [[("d", "x"), ("t", "a")], [("d", "y"), ("t", "a")]]

/-- 3999 copies of `"a"` followed by one `"b"`: a non-homogeneous sequence
whose gini impurity `0.000499875` rounds to `0` at 3 decimals. -/
def bigList : List Label := List.replicate 3999 "a" ++ ["b"]

/-! ## Properties of `unique` and `value_counts` -/

theorem mem_uniqueAux {a : Label} :
    ∀ (l : List Label) (seen : List Label),
      a ∈ uniqueAux seen l ↔ a ∈ l ∧ a ∉ seen
  | [], seen => by simp [uniqueAux]
  | x :: xs, seen => by
    by_cases hx : x ∈ seen
    · simp only [uniqueAux, if_pos hx, mem_uniqueAux xs seen, List.mem_cons]
      constructor
      · rintro ⟨h1, h2⟩; exact ⟨Or.inr h1, h2⟩
      · rintro ⟨h1 | h1, h2⟩
        · exact absurd (h1 ▸ hx) h2
        · exact ⟨h1, h2⟩
    · simp only [uniqueAux, if_neg hx, List.mem_cons, mem_uniqueAux xs (x :: seen)]
      constructor
      · rintro (h | ⟨h1, h2⟩)
        · exact ⟨Or.inl h, fun hs => hx (h ▸ hs)⟩
        · exact ⟨Or.inr h1, fun hs => h2 (Or.inr hs)⟩
      · rintro ⟨h1 | h1, h2⟩
        · exact Or.inl h1
        · by_cases hax : a = x
          · exact Or.inl hax
          · exact Or.inr ⟨h1, fun h => h.elim hax h2⟩

theorem nodup_uniqueAux : ∀ (l : List Label) (seen : List Label), (uniqueAux seen l).Nodup
  | [], _ => List.nodup_nil
  | x :: xs, seen => by
    by_cases hx : x ∈ seen
    · simpa only [uniqueAux, if_pos hx] using nodup_uniqueAux xs seen
    · simp only [uniqueAux, if_neg hx]
      refine List.nodup_cons.mpr ⟨?_, nodup_uniqueAux xs (x :: seen)⟩
      intro hmem
      exact ((mem_uniqueAux xs (x :: seen)).mp hmem).2 (List.mem_cons_self x seen)

theorem mem_unique {a : Label} {l : List Label} : a ∈ unique l ↔ a ∈ l := by
  simp [unique, mem_uniqueAux]

theorem nodup_unique (l : List Label) : (unique l).Nodup := nodup_uniqueAux l []

theorem toFinset_unique (l : List Label) : (unique l).toFinset = l.toFinset := by
  ext a
  simp [List.mem_toFinset, mem_unique]

theorem sum_value_counts_map (f : List Label) (g : Label → Nat → ℝ) :
    ((value_counts f).map (fun vc => g vc.1 vc.2)).sum
      = ∑ v ∈ f.toFinset, g v (f.count v) := by
  rw [value_counts, List.map_map]
  have h1 : ((unique f).map (fun v => g v (f.count v))).sum
      = (unique f).toFinset.sum (fun v => g v (f.count v)) :=
    (List.sum_toFinset _ (nodup_unique f)).symm
  have h2 : ((fun vc : Label × Nat => g vc.1 vc.2) ∘ fun v => (v, f.count v))
      = fun v => g v (f.count v) := rfl
  rw [h2, h1, toFinset_unique]

/-! ## `compute_impurity` against the spec's formulas -/

theorem compute_impurity_entropy (f : List Label) :
    compute_impurity f "entropy" = .ok (round3 (specEntropy f)) := by
  rw [compute_impurity]
  simp only [if_pos rfl]
  have harg :
      -1 * (((value_counts f).map (fun vc => (vc.2 : ℝ) / (f.length : ℝ))).map
          (fun p => Real.logb 2 p * p)).sum = specEntropy f := by
    rw [List.map_map]
    have h : ((fun p : ℝ => Real.logb 2 p * p) ∘
        fun vc : Label × Nat => (vc.2 : ℝ) / (f.length : ℝ))
        = fun vc : Label × Nat =>
            Real.logb 2 ((vc.2 : ℝ) / (f.length : ℝ)) * ((vc.2 : ℝ) / (f.length : ℝ)) := rfl
    rw [h, sum_value_counts_map f
      (fun v c => Real.logb 2 ((c : ℝ) / (f.length : ℝ)) * ((c : ℝ) / (f.length : ℝ))),
      specEntropy, neg_one_mul, neg_inj]
    exact Finset.sum_congr rfl (fun v _ => mul_comm _ _)
  rw [harg]
  simp

theorem compute_impurity_gini (f : List Label) :
    compute_impurity f "gini" = .ok (round3 (specGini f)) := by
  rw [compute_impurity]
  simp only [if_neg (by decide : ¬("gini" = "entropy")), if_pos rfl]
  have harg :
      1 - (((value_counts f).map (fun vc => (vc.2 : ℝ) / (f.length : ℝ))).map
          (fun p => p ^ 2)).sum = specGini f := by
    rw [List.map_map]
    have h : ((fun p : ℝ => p ^ 2) ∘ fun vc : Label × Nat => (vc.2 : ℝ) / (f.length : ℝ))
        = fun vc : Label × Nat => ((vc.2 : ℝ) / (f.length : ℝ)) ^ 2 := rfl
    rw [h, sum_value_counts_map f (fun v c => ((c : ℝ) / (f.length : ℝ)) ^ 2), specGini]
  rw [harg]
  simp

theorem compute_impurity_valid (f : List Label) (crit : String)
    (h : crit = "entropy" ∨ crit = "gini") :
    compute_impurity f crit = .ok (round3 (specImpurity crit f)) := by
  rcases h with h | h <;> subst h
  · rw [compute_impurity_entropy, specImpurity, if_pos rfl]
  · rw [compute_impurity_gini, specImpurity, if_neg (by decide : ¬("gini" = "entropy"))]

/-! ## `round3` facts -/

theorem round3_eq_div (x : ℝ) (n : ℤ) (h1 : (n : ℝ) ≤ 1000 * x + 1 / 2)
    (h2 : 1000 * x + 1 / 2 < (n : ℝ) + 1) : round3 x = (n : ℝ) / 1000 := by
  rw [round3, round_eq, Int.floor_eq_iff.mpr ⟨h1, h2⟩]

theorem round3_zero : round3 0 = 0 := by
  simp [round3]

theorem round3_one : round3 1 = 1 := by
  rw [round3_eq_div 1 1000 (by norm_num) (by norm_num)]
  norm_num

theorem round3_round3 (x : ℝ) : round3 (round3 x) = round3 x := by
  rw [round3, round3]
  have h : (1000 : ℝ) * ((round (1000 * x) : ℤ) / 1000) = ((round (1000 * x) : ℤ) : ℝ) := by
    field_simp
  rw [h, round_intCast]

/-! ## Homogeneous sequences -/

theorem uniqueAux_of_forall_mem :
    ∀ (l seen : List Label), (∀ x ∈ l, x ∈ seen) → uniqueAux seen l = []
  | [], _, _ => rfl
  | x :: xs, seen, h => by
    rw [uniqueAux, if_pos (h x (List.mem_cons_self x xs))]
    exact uniqueAux_of_forall_mem xs seen (fun y hy => h y (List.mem_cons_of_mem x hy))

theorem unique_const (l : List Label) (a : Label) (hne : l ≠ [])
    (hall : ∀ x ∈ l, x = a) : unique l = [a] := by
  match l, hne with
  | x :: xs, _ =>
    have hx : x = a := hall x (List.mem_cons_self x xs)
    subst hx
    rw [unique, uniqueAux, if_neg (List.not_mem_nil x)]
    rw [uniqueAux_of_forall_mem xs [x] (fun y hy => by
      rw [hall y (List.mem_cons_of_mem x hy)]
      exact List.mem_cons_self x [])]

theorem value_counts_const (l : List Label) (a : Label) (hne : l ≠ [])
    (hall : ∀ x ∈ l, x = a) : value_counts l = [(a, l.length)] := by
  rw [value_counts, unique_const l a hne hall, List.map_cons, List.map_nil]
  rw [List.count_eq_length.mpr (fun b hb => (hall b hb).symm)]

theorem compute_impurity_const (l : List Label) (a : Label) (hne : l ≠ [])
    (hall : ∀ x ∈ l, x = a) :
    compute_impurity l "entropy" = .ok 0 ∧ compute_impurity l "gini" = .ok 0 := by
  have hlen : (l.length : ℝ) ≠ 0 := by
    have := List.length_pos.mpr hne
    positivity
  have hprob : ((l.length : ℝ) / (l.length : ℝ)) = 1 := div_self hlen
  constructor
  · rw [compute_impurity]
    simp only [if_pos rfl, value_counts_const l a hne hall, List.map_cons, List.map_nil,
      hprob, List.sum_cons, List.sum_nil]
    rw [Real.logb_one]
    norm_num [round3_zero]
  · rw [compute_impurity]
    simp only [if_neg (by decide : ¬("gini" = "entropy")), if_pos rfl,
      value_counts_const l a hne hall, List.map_cons, List.map_nil, hprob,
      List.sum_cons, List.sum_nil]
    norm_num [round3_zero]

/-! ## Rational bounds on `log2` of small naturals

`logb 2 n < p/q` reduces to the integer inequality `n^q < 2^p` (and
symmetrically for lower bounds), which `norm_num` checks. -/

theorem logb2_lt_div (n p q : ℕ) (hn : 0 < n) (hq : 0 < q) (h : n ^ q < 2 ^ p) :
    Real.logb 2 (n : ℝ) < (p : ℝ) / q := by
  have hn' : (0 : ℝ) < n := by exact_mod_cast hn
  rw [Real.logb_lt_iff_lt_rpow one_lt_two hn']
  have hq' : (0 : ℝ) < q := by exact_mod_cast hq
  have hpow : ((n : ℝ)) ^ q < ((2 : ℝ) ^ ((p : ℝ) / q)) ^ q := by
    have hrw : ((2 : ℝ) ^ ((p : ℝ) / q)) ^ q = (2 : ℝ) ^ (p : ℝ) := by
      rw [← Real.rpow_natCast ((2 : ℝ) ^ ((p : ℝ) / q)) q, ← Real.rpow_mul (by norm_num),
        div_mul_cancel₀ _ (ne_of_gt hq')]
    rw [hrw, Real.rpow_natCast]
    exact_mod_cast h
  exact lt_of_pow_lt_pow_left₀ q (Real.rpow_nonneg (by norm_num) _) hpow

theorem div_lt_logb2 (n p q : ℕ) (hn : 0 < n) (hq : 0 < q) (h : 2 ^ p < n ^ q) :
    (p : ℝ) / q < Real.logb 2 (n : ℝ) := by
  have hn' : (0 : ℝ) < n := by exact_mod_cast hn
  rw [Real.lt_logb_iff_rpow_lt one_lt_two hn']
  have hq' : (0 : ℝ) < q := by exact_mod_cast hq
  have hpow : ((2 : ℝ) ^ ((p : ℝ) / q)) ^ q < ((n : ℝ)) ^ q := by
    have hrw : ((2 : ℝ) ^ ((p : ℝ) / q)) ^ q = (2 : ℝ) ^ (p : ℝ) := by
      rw [← Real.rpow_natCast ((2 : ℝ) ^ ((p : ℝ) / q)) q, ← Real.rpow_mul (by norm_num),
        div_mul_cancel₀ _ (ne_of_gt hq')]
    rw [hrw, Real.rpow_natCast]
    exact_mod_cast h
  exact lt_of_pow_lt_pow_left₀ q (le_of_lt hn') hpow

theorem logb2_three_lb : (1.58496 : ℝ) < Real.logb 2 3 := by
  have h := div_lt_logb2 3 158496 100000 (by norm_num) (by norm_num) (by norm_num)
  norm_num at h ⊢
  convert h using 2

theorem logb2_three_ub : Real.logb 2 3 < (1.58497 : ℝ) := by
  have h := logb2_lt_div 3 158497 100000 (by norm_num) (by norm_num) (by norm_num)
  norm_num at h ⊢
  convert h using 2

theorem logb2_five_lb : (2.32192 : ℝ) < Real.logb 2 5 := by
  have h := div_lt_logb2 5 232192 100000 (by norm_num) (by norm_num) (by norm_num)
  norm_num at h ⊢
  convert h using 2

theorem logb2_five_ub : Real.logb 2 5 < (2.32193 : ℝ) := by
  have h := logb2_lt_div 5 232193 100000 (by norm_num) (by norm_num) (by norm_num)
  norm_num at h ⊢
  convert h using 2

theorem logb2_seven_lb : (2.80735 : ℝ) < Real.logb 2 7 := by
  have h := div_lt_logb2 7 280735 100000 (by norm_num) (by norm_num) (by norm_num)
  norm_num at h ⊢
  convert h using 2

theorem logb2_seven_ub : Real.logb 2 7 < (2.80736 : ℝ) := by
  have h := logb2_lt_div 7 280736 100000 (by norm_num) (by norm_num) (by norm_num)
  norm_num at h ⊢
  convert h using 2

/-! ## Unfolding the gain computation for a valid criterion -/

theorem partitionStats_valid (df : List Row) (t d crit : String)
    (h : crit = "entropy" ∨ crit = "gini") :
    ∀ levels : List Label,
      partitionStats df t d crit levels = .ok (levels.map (fun ℓ =>
        (round3 (specImpurity crit (col (partitionOf df d ℓ) t)),
         round3 (((partitionOf df d ℓ).length : ℝ) / (df.length : ℝ)))))
  | [] => rfl
  | ℓ :: rest => by
    rw [partitionStats, compute_impurity_valid _ _ h, partitionStats_valid df t d crit h rest]
    simp only [List.map_cons, round3_round3]

theorem gain_formula (df : List Row) (t d crit : String)
    (h : crit = "entropy" ∨ crit = "gini") :
    comp_feature_information_gain df t d crit =
      .ok (round3 (specImpurity crit (col df t)) - remainingRounded df t d crit) := by
  have key : comp_feature_information_gain df t d crit =
      .ok (round3 (specImpurity crit (col df t)) -
        (((unique (col df d)).map (fun ℓ =>
            (round3 (specImpurity crit (col (partitionOf df d ℓ) t)),
             round3 (((partitionOf df d ℓ).length : ℝ) / (df.length : ℝ))))).map
          (fun s => s.1 * s.2)).sum) := by
    rw [comp_feature_information_gain, compute_impurity_valid _ _ h,
      partitionStats_valid df t d crit h]
  rw [key, remainingRounded, List.map_map]
  rfl

theorem trace_formula (df : List Row) (t d crit : String)
    (h : crit = "entropy" ∨ crit = "gini") :
    compGainTrace df t d crit =
      .ok { target_impurity := round3 (specImpurity crit (col df t))
            impurity_list := (unique (col df d)).map (fun ℓ =>
              round3 (specImpurity crit (col (partitionOf df d ℓ) t)))
            weight_list := (unique (col df d)).map (fun ℓ =>
              round3 (((partitionOf df d ℓ).length : ℝ) / (df.length : ℝ)))
            remaining_impurity := remainingRounded df t d crit
            information_gain :=
              round3 (specImpurity crit (col df t)) - remainingRounded df t d crit } := by
  have key : compGainTrace df t d crit =
      .ok { target_impurity := round3 (specImpurity crit (col df t))
            impurity_list := ((unique (col df d)).map (fun ℓ =>
              (round3 (specImpurity crit (col (partitionOf df d ℓ) t)),
               round3 (((partitionOf df d ℓ).length : ℝ) / (df.length : ℝ))))).map Prod.fst
            weight_list := ((unique (col df d)).map (fun ℓ =>
              (round3 (specImpurity crit (col (partitionOf df d ℓ) t)),
               round3 (((partitionOf df d ℓ).length : ℝ) / (df.length : ℝ))))).map Prod.snd
            remaining_impurity := (((unique (col df d)).map (fun ℓ =>
              (round3 (specImpurity crit (col (partitionOf df d ℓ) t)),
               round3 (((partitionOf df d ℓ).length : ℝ) / (df.length : ℝ))))).map
                (fun s => s.1 * s.2)).sum
            information_gain := round3 (specImpurity crit (col df t)) -
              (((unique (col df d)).map (fun ℓ =>
                (round3 (specImpurity crit (col (partitionOf df d ℓ) t)),
                 round3 (((partitionOf df d ℓ).length : ℝ) / (df.length : ℝ))))).map
                  (fun s => s.1 * s.2)).sum } := by
    rw [compGainTrace, compute_impurity_valid _ _ h, partitionStats_valid df t d crit h]
  rw [key, remainingRounded]
  simp only [List.map_map]
  rfl

theorem comp_eq_trace_map (df : List Row) (t d c : String) :
    comp_feature_information_gain df t d c =
      (compGainTrace df t d c).map GainTrace.information_gain := by
  rw [comp_feature_information_gain, compGainTrace]
  cases hti : compute_impurity (col df t) c with
  | error e => rfl
  | ok v =>
    cases hps : partitionStats df t d c (unique (col df d)) with
    | error e => rfl
    | ok stats => rfl

/-! ## Concrete impurity values

Each lemma evaluates `compute_impurity` on a concrete count distribution;
the `value_counts` hypothesis is discharged by `rfl` at each use site. -/

theorem logb2_four : Real.logb 2 (4 : ℝ) = 2 := by
  rw [show (4:ℝ) = 2 ^ (2:ℕ) by norm_num, Real.logb_pow, Real.logb_self_eq_one one_lt_two]
  norm_num

theorem entropy_dist_21 (f : List Label) (a b : Label)
    (hvc : value_counts f = [(a, 2), (b, 1)]) (hlen : f.length = 3) :
    compute_impurity f "entropy" = .ok (918 / 1000 : ℝ) := by
  rw [compute_impurity]
  simp only [if_pos rfl, hvc, hlen, List.map_cons, List.map_nil, List.sum_cons, List.sum_nil]
  have harg : -1 * (Real.logb 2 (((2:ℕ):ℝ) / ((3:ℕ):ℝ)) * (((2:ℕ):ℝ) / ((3:ℕ):ℝ)) +
      (Real.logb 2 (((1:ℕ):ℝ) / ((3:ℕ):ℝ)) * (((1:ℕ):ℝ) / ((3:ℕ):ℝ)) + 0)) =
      Real.logb 2 3 - 2/3 := by
    push_cast
    rw [Real.logb_div (by norm_num) (by norm_num),
      show ((1:ℝ)/3) = (3:ℝ)⁻¹ by norm_num, Real.logb_inv,
      Real.logb_self_eq_one one_lt_two]
    ring
  rw [harg, round3_eq_div _ 918 (by linarith [logb2_three_lb]) (by linarith [logb2_three_ub])]
  norm_num

theorem entropy_dist_322 (f : List Label) (a b c : Label)
    (hvc : value_counts f = [(a, 3), (b, 2), (c, 2)]) (hlen : f.length = 7) :
    compute_impurity f "entropy" = .ok (1557 / 1000 : ℝ) := by
  rw [compute_impurity]
  simp only [if_pos rfl, hvc, hlen, List.map_cons, List.map_nil, List.sum_cons, List.sum_nil]
  have harg : -1 * (Real.logb 2 (((3:ℕ):ℝ) / ((7:ℕ):ℝ)) * (((3:ℕ):ℝ) / ((7:ℕ):ℝ)) +
      (Real.logb 2 (((2:ℕ):ℝ) / ((7:ℕ):ℝ)) * (((2:ℕ):ℝ) / ((7:ℕ):ℝ)) +
        (Real.logb 2 (((2:ℕ):ℝ) / ((7:ℕ):ℝ)) * (((2:ℕ):ℝ) / ((7:ℕ):ℝ)) + 0))) =
      Real.logb 2 7 - (3/7) * Real.logb 2 3 - 4/7 := by
    push_cast
    rw [Real.logb_div (by norm_num) (by norm_num),
      Real.logb_div (by norm_num) (by norm_num),
      Real.logb_self_eq_one one_lt_two]
    ring
  rw [harg, round3_eq_div _ 1557
    (by linarith [logb2_seven_lb, logb2_three_ub])
    (by linarith [logb2_seven_ub, logb2_three_lb])]
  norm_num

theorem entropy_dist_311 (f : List Label) (a b c : Label)
    (hvc : value_counts f = [(a, 3), (b, 1), (c, 1)]) (hlen : f.length = 5) :
    compute_impurity f "entropy" = .ok (1371 / 1000 : ℝ) := by
  rw [compute_impurity]
  simp only [if_pos rfl, hvc, hlen, List.map_cons, List.map_nil, List.sum_cons, List.sum_nil]
  have harg : -1 * (Real.logb 2 (((3:ℕ):ℝ) / ((5:ℕ):ℝ)) * (((3:ℕ):ℝ) / ((5:ℕ):ℝ)) +
      (Real.logb 2 (((1:ℕ):ℝ) / ((5:ℕ):ℝ)) * (((1:ℕ):ℝ) / ((5:ℕ):ℝ)) +
        (Real.logb 2 (((1:ℕ):ℝ) / ((5:ℕ):ℝ)) * (((1:ℕ):ℝ) / ((5:ℕ):ℝ)) + 0))) =
      Real.logb 2 5 - (3/5) * Real.logb 2 3 := by
    push_cast
    rw [Real.logb_div (by norm_num) (by norm_num),
      show ((1:ℝ)/5) = (5:ℝ)⁻¹ by norm_num, Real.logb_inv]
    ring
  rw [harg, round3_eq_div _ 1371
    (by linarith [logb2_five_lb, logb2_three_ub])
    (by linarith [logb2_five_ub, logb2_three_lb])]
  norm_num

theorem entropy_dist_211 (f : List Label) (a b c : Label)
    (hvc : value_counts f = [(a, 2), (b, 1), (c, 1)]) (hlen : f.length = 4) :
    compute_impurity f "entropy" = .ok (3 / 2 : ℝ) := by
  rw [compute_impurity]
  simp only [if_pos rfl, hvc, hlen, List.map_cons, List.map_nil, List.sum_cons, List.sum_nil]
  have harg : -1 * (Real.logb 2 (((2:ℕ):ℝ) / ((4:ℕ):ℝ)) * (((2:ℕ):ℝ) / ((4:ℕ):ℝ)) +
      (Real.logb 2 (((1:ℕ):ℝ) / ((4:ℕ):ℝ)) * (((1:ℕ):ℝ) / ((4:ℕ):ℝ)) +
        (Real.logb 2 (((1:ℕ):ℝ) / ((4:ℕ):ℝ)) * (((1:ℕ):ℝ) / ((4:ℕ):ℝ)) + 0))) = 3/2 := by
    push_cast
    rw [Real.logb_div (by norm_num) (by norm_num),
      show ((1:ℝ)/4) = (4:ℝ)⁻¹ by norm_num, Real.logb_inv, logb2_four,
      Real.logb_self_eq_one one_lt_two]
    ring
  rw [harg, round3_eq_div _ 1500 (by norm_num) (by norm_num)]
  norm_num

theorem entropy_dist_11 (f : List Label) (a b : Label)
    (hvc : value_counts f = [(a, 1), (b, 1)]) (hlen : f.length = 2) :
    compute_impurity f "entropy" = .ok (1 : ℝ) := by
  rw [compute_impurity]
  simp only [if_pos rfl, hvc, hlen, List.map_cons, List.map_nil, List.sum_cons, List.sum_nil]
  have harg : -1 * (Real.logb 2 (((1:ℕ):ℝ) / ((2:ℕ):ℝ)) * (((1:ℕ):ℝ) / ((2:ℕ):ℝ)) +
      (Real.logb 2 (((1:ℕ):ℝ) / ((2:ℕ):ℝ)) * (((1:ℕ):ℝ) / ((2:ℕ):ℝ)) + 0)) = 1 := by
    push_cast
    rw [show ((1:ℝ)/2) = (2:ℝ)⁻¹ by norm_num, Real.logb_inv,
      Real.logb_self_eq_one one_lt_two]
    ring
  rw [harg, round3_one]
  simp

theorem gini_dist_21 (f : List Label) (a b : Label)
    (hvc : value_counts f = [(a, 2), (b, 1)]) (hlen : f.length = 3) :
    compute_impurity f "gini" = .ok (444 / 1000 : ℝ) := by
  rw [compute_impurity]
  simp only [if_neg (by decide : ¬("gini" = "entropy")), if_pos rfl, hvc, hlen,
    List.map_cons, List.map_nil, List.sum_cons, List.sum_nil]
  have harg : 1 - ((((2:ℕ):ℝ) / ((3:ℕ):ℝ)) ^ 2 + ((((1:ℕ):ℝ) / ((3:ℕ):ℝ)) ^ 2 + 0))
      = 4/9 := by
    push_cast
    ring
  rw [harg, round3_eq_div _ 444 (by norm_num) (by norm_num)]
  norm_num

theorem gini_dist_11 (f : List Label) (a b : Label)
    (hvc : value_counts f = [(a, 1), (b, 1)]) (hlen : f.length = 2) :
    compute_impurity f "gini" = .ok (1 / 2 : ℝ) := by
  rw [compute_impurity]
  simp only [if_neg (by decide : ¬("gini" = "entropy")), if_pos rfl, hvc, hlen,
    List.map_cons, List.map_nil, List.sum_cons, List.sum_nil]
  have harg : 1 - ((((1:ℕ):ℝ) / ((2:ℕ):ℝ)) ^ 2 + ((((1:ℕ):ℝ) / ((2:ℕ):ℝ)) ^ 2 + 0))
      = 1/2 := by
    push_cast
    ring
  rw [harg, round3_eq_div _ 500 (by norm_num) (by norm_num)]
  norm_num

/-! ## Evaluating `value_counts` on `bigList` -/

theorem uniqueAux_replicate_append (a b : Label) (hb : ¬ b ∈ [a]) :
    ∀ n : ℕ, uniqueAux [a] (List.replicate n a ++ [b]) = [b]
  | 0 => by
    rw [List.replicate_zero, List.nil_append, uniqueAux, if_neg hb]
    rfl
  | n + 1 => by
    rw [List.replicate_succ, List.cons_append, uniqueAux,
      if_pos (List.mem_cons_self a []), uniqueAux_replicate_append a b hb n]

theorem unique_bigList : unique bigList = ["a", "b"] := by
  rw [bigList, unique, show List.replicate 3999 "a" = "a" :: List.replicate 3998 "a" from rfl,
    List.cons_append, uniqueAux, if_neg (List.not_mem_nil "a"),
    uniqueAux_replicate_append "a" "b" (by decide) 3998]

theorem length_bigList : bigList.length = 4000 := by
  rw [bigList, List.length_append, List.length_replicate]
  rfl

theorem count_a_bigList : bigList.count "a" = 3999 := by
  rw [bigList, List.count_append, List.count_replicate_self]
  rfl

theorem count_b_bigList : bigList.count "b" = 1 := by
  rw [bigList, List.count_append, List.count_replicate]
  rfl

theorem value_counts_bigList : value_counts bigList = [("a", 3999), ("b", 1)] := by
  rw [value_counts, unique_bigList, List.map_cons, List.map_cons, List.map_nil,
    count_a_bigList, count_b_bigList]

theorem gini_bigList : compute_impurity bigList "gini" = .ok 0 := by
  rw [compute_impurity]
  simp only [if_neg (by decide : ¬("gini" = "entropy")), if_pos rfl, value_counts_bigList,
    length_bigList, List.map_cons, List.map_nil, List.sum_cons, List.sum_nil]
  have harg : 1 - ((((3999:ℕ):ℝ) / ((4000:ℕ):ℝ)) ^ 2 + ((((1:ℕ):ℝ) / ((4000:ℕ):ℝ)) ^ 2 + 0))
      = 7998 / 16000000 := by
    push_cast
    ring
  rw [harg, round3_eq_div _ 0 (by norm_num) (by norm_num)]
  norm_num

/-! ## Stepwise evaluation helpers -/

theorem partitionStats_cons_ok (df : List Row) (t d crit : String) (ℓ : Label)
    (rest : List Label) (v : ℝ) (tail : List (ℝ × ℝ))
    (h1 : compute_impurity (col (partitionOf df d ℓ) t) crit = .ok v)
    (h2 : partitionStats df t d crit rest = .ok tail) :
    partitionStats df t d crit (ℓ :: rest) =
      .ok ((round3 v, round3 (((partitionOf df d ℓ).length : ℝ) / (df.length : ℝ))) :: tail) := by
  rw [partitionStats, h1, h2]

theorem comp_gain_ok (df : List Row) (t d crit : String) (ti : ℝ) (stats : List (ℝ × ℝ))
    (h1 : compute_impurity (col df t) crit = .ok ti)
    (h2 : partitionStats df t d crit (unique (col df d)) = .ok stats) :
    comp_feature_information_gain df t d crit =
      .ok (ti - (stats.map (fun s => s.1 * s.2)).sum) := by
  rw [comp_feature_information_gain, h1, h2]

theorem trace_ok (df : List Row) (t d crit : String) (ti : ℝ) (stats : List (ℝ × ℝ))
    (h1 : compute_impurity (col df t) crit = .ok ti)
    (h2 : partitionStats df t d crit (unique (col df d)) = .ok stats) :
    compGainTrace df t d crit =
      .ok { target_impurity := ti
            impurity_list := stats.map Prod.fst
            weight_list := stats.map Prod.snd
            remaining_impurity := (stats.map (fun s => s.1 * s.2)).sum
            information_gain := ti - (stats.map (fun s => s.1 * s.2)).sum } := by
  rw [compGainTrace, h1, h2]

/-! ## Concrete `round3` values -/

theorem round3_w37 : round3 ((3 : ℝ) / 7) = 429 / 1000 := by
  rw [round3_eq_div _ 429 (by norm_num) (by norm_num)]
  norm_num

theorem round3_w17 : round3 ((1 : ℝ) / 7) = 143 / 1000 := by
  rw [round3_eq_div _ 143 (by norm_num) (by norm_num)]
  norm_num

theorem round3_w27 : round3 ((2 : ℝ) / 7) = 286 / 1000 := by
  rw [round3_eq_div _ 286 (by norm_num) (by norm_num)]
  norm_num

theorem round3_w47 : round3 ((4 : ℝ) / 7) = 571 / 1000 := by
  rw [round3_eq_div _ 571 (by norm_num) (by norm_num)]
  norm_num

theorem round3_w57 : round3 ((5 : ℝ) / 7) = 714 / 1000 := by
  rw [round3_eq_div _ 714 (by norm_num) (by norm_num)]
  norm_num

theorem round3_w23 : round3 ((2 : ℝ) / 3) = 667 / 1000 := by
  rw [round3_eq_div _ 667 (by norm_num) (by norm_num)]
  norm_num

theorem round3_w13 : round3 ((1 : ℝ) / 3) = 333 / 1000 := by
  rw [round3_eq_div _ 333 (by norm_num) (by norm_num)]
  norm_num

theorem round3_918 : round3 ((918 : ℝ) / 1000) = 918 / 1000 := by
  rw [round3_eq_div _ 918 (by norm_num) (by norm_num)]
  norm_num

theorem round3_1371 : round3 ((1371 : ℝ) / 1000) = 1371 / 1000 := by
  rw [round3_eq_div _ 1371 (by norm_num) (by norm_num)]
  norm_num

theorem round3_32 : round3 ((3 : ℝ) / 2) = 3 / 2 := by
  rw [round3_eq_div _ 1500 (by norm_num) (by norm_num)]
  norm_num

theorem round3_half : round3 ((1 : ℝ) / 2) = 1 / 2 := by
  rw [round3_eq_div _ 500 (by norm_num) (by norm_num)]
  norm_num

theorem round3_444 : round3 ((444 : ℝ) / 1000) = 444 / 1000 := by
  rw [round3_eq_div _ 444 (by norm_num) (by norm_num)]
  norm_num

/-! ## Partitioning on the target attribute itself -/

theorem col_partition_self_all (df : List Row) (t : String) (ℓ : Label) :
    ∀ x ∈ col (partitionOf df t ℓ) t, x = ℓ := by
  intro x hx
  rw [col, List.mem_filterMap] at hx
  obtain ⟨r, hr, hlook⟩ := hx
  rw [partitionOf, List.mem_filter] at hr
  have heq : r.lookup t = some ℓ := by
    have := hr.2
    exact eq_of_beq this
  rw [heq] at hlook
  exact (Option.some_inj.mp hlook.symm)

theorem col_partition_self_ne_nil (df : List Row) (t : String) (ℓ : Label)
    (h : ℓ ∈ unique (col df t)) : col (partitionOf df t ℓ) t ≠ [] := by
  have hc : ℓ ∈ col df t := mem_unique.mp h
  rw [col, List.mem_filterMap] at hc
  obtain ⟨r, hr, hlook⟩ := hc
  have hrp : r ∈ partitionOf df t ℓ := by
    rw [partitionOf, List.mem_filter]
    exact ⟨hr, by rw [hlook]; exact beq_self_eq_true _⟩
  have : ℓ ∈ col (partitionOf df t ℓ) t := by
    rw [col, List.mem_filterMap]
    exact ⟨r, hrp, hlook⟩
  exact List.ne_nil_of_mem this

/-! ## Evaluating the notebook's vegetation example (entropy criterion) -/

theorem stats_elev : partitionStats vegDF "vegetation" "elevation" "entropy"
    ["high", "low", "medium", "highest"] =
    .ok [(918/1000, 429/1000), (0, 143/1000), (1, 286/1000), (0, 143/1000)] := by
  have s4 : partitionStats vegDF "vegetation" "elevation" "entropy" [] = .ok [] := rfl
  have s3 : partitionStats vegDF "vegetation" "elevation" "entropy" ["highest"]
      = .ok [(0, 143/1000)] := by
    rw [partitionStats_cons_ok vegDF "vegetation" "elevation" "entropy" "highest" [] 0 []
      ((compute_impurity_const _ "conifer" (by decide) (by decide)).1) s4]
    rw [show (partitionOf vegDF "elevation" "highest").length = 1 from rfl,
      show vegDF.length = 7 from rfl, round3_zero]
    norm_num [round3_w17]
  have s2 : partitionStats vegDF "vegetation" "elevation" "entropy" ["medium", "highest"]
      = .ok [(1, 286/1000), (0, 143/1000)] := by
    rw [partitionStats_cons_ok vegDF "vegetation" "elevation" "entropy" "medium" ["highest"] 1 _
      (entropy_dist_11 _ "riparian" "chapparal" rfl rfl) s3]
    rw [show (partitionOf vegDF "elevation" "medium").length = 2 from rfl,
      show vegDF.length = 7 from rfl, round3_one]
    norm_num [round3_w27]
  have s1 : partitionStats vegDF "vegetation" "elevation" "entropy" ["low", "medium", "highest"]
      = .ok [(0, 143/1000), (1, 286/1000), (0, 143/1000)] := by
    rw [partitionStats_cons_ok vegDF "vegetation" "elevation" "entropy" "low" ["medium", "highest"] 0 _
      ((compute_impurity_const _ "riparian" (by decide) (by decide)).1) s2]
    rw [show (partitionOf vegDF "elevation" "low").length = 1 from rfl,
      show vegDF.length = 7 from rfl, round3_zero]
    norm_num [round3_w17]
  rw [partitionStats_cons_ok vegDF "vegetation" "elevation" "entropy" "high"
      ["low", "medium", "highest"] (918/1000) _
      (entropy_dist_21 _ "chapparal" "conifer" rfl rfl) s1]
  rw [show (partitionOf vegDF "elevation" "high").length = 3 from rfl,
    show vegDF.length = 7 from rfl, round3_918]
  norm_num [round3_w37]

theorem stats_stream : partitionStats vegDF "vegetation" "stream" "entropy"
    ["False", "True"] = .ok [(918/1000, 429/1000), (3/2, 571/1000)] := by
  have s2 : partitionStats vegDF "vegetation" "stream" "entropy" [] = .ok [] := rfl
  have s1 : partitionStats vegDF "vegetation" "stream" "entropy" ["True"]
      = .ok [(3/2, 571/1000)] := by
    rw [partitionStats_cons_ok vegDF "vegetation" "stream" "entropy" "True" [] (3/2) []
      (entropy_dist_211 _ "riparian" "conifer" "chapparal" rfl rfl) s2]
    rw [show (partitionOf vegDF "stream" "True").length = 4 from rfl,
      show vegDF.length = 7 from rfl, round3_32]
    norm_num [round3_w47]
  rw [partitionStats_cons_ok vegDF "vegetation" "stream" "entropy" "False" ["True"] (918/1000) _
    (entropy_dist_21 _ "chapparal" "conifer" rfl rfl) s1]
  rw [show (partitionOf vegDF "stream" "False").length = 3 from rfl,
    show vegDF.length = 7 from rfl, round3_918]
  norm_num [round3_w37]

theorem stats_slope : partitionStats vegDF "vegetation" "slope" "entropy"
    ["steep", "moderate", "flat"] =
    .ok [(1371/1000, 714/1000), (0, 143/1000), (0, 143/1000)] := by
  have s3 : partitionStats vegDF "vegetation" "slope" "entropy" [] = .ok [] := rfl
  have s2 : partitionStats vegDF "vegetation" "slope" "entropy" ["flat"]
      = .ok [(0, 143/1000)] := by
    rw [partitionStats_cons_ok vegDF "vegetation" "slope" "entropy" "flat" [] 0 []
      ((compute_impurity_const _ "conifer" (by decide) (by decide)).1) s3]
    rw [show (partitionOf vegDF "slope" "flat").length = 1 from rfl,
      show vegDF.length = 7 from rfl, round3_zero]
    norm_num [round3_w17]
  have s1 : partitionStats vegDF "vegetation" "slope" "entropy" ["moderate", "flat"]
      = .ok [(0, 143/1000), (0, 143/1000)] := by
    rw [partitionStats_cons_ok vegDF "vegetation" "slope" "entropy" "moderate" ["flat"] 0 _
      ((compute_impurity_const _ "riparian" (by decide) (by decide)).1) s2]
    rw [show (partitionOf vegDF "slope" "moderate").length = 1 from rfl,
      show vegDF.length = 7 from rfl, round3_zero]
    norm_num [round3_w17]
  rw [partitionStats_cons_ok vegDF "vegetation" "slope" "entropy" "steep" ["moderate", "flat"]
    (1371/1000) _ (entropy_dist_311 _ "chapparal" "riparian" "conifer" rfl rfl) s1]
  rw [show (partitionOf vegDF "slope" "steep").length = 5 from rfl,
    show vegDF.length = 7 from rfl, round3_1371]
  norm_num [round3_w57]

theorem target_impurity_veg : compute_impurity (col vegDF "vegetation") "entropy"
    = .ok (1557/1000) :=
  entropy_dist_322 _ "chapparal" "riparian" "conifer" rfl rfl

theorem gain_elev : comp_feature_information_gain vegDF "vegetation" "elevation" "entropy"
    = .ok (877178/1000000) := by
  rw [comp_gain_ok vegDF "vegetation" "elevation" "entropy" (1557/1000) _
    target_impurity_veg (by rw [show unique (col vegDF "elevation")
      = ["high", "low", "medium", "highest"] from rfl, stats_elev])]
  norm_num

theorem gain_stream : comp_feature_information_gain vegDF "vegetation" "stream" "entropy"
    = .ok (306678/1000000) := by
  rw [comp_gain_ok vegDF "vegetation" "stream" "entropy" (1557/1000) _
    target_impurity_veg (by rw [show unique (col vegDF "stream")
      = ["False", "True"] from rfl, stats_stream])]
  norm_num

theorem gain_slope : comp_feature_information_gain vegDF "vegetation" "slope" "entropy"
    = .ok (578106/1000000) := by
  rw [comp_gain_ok vegDF "vegetation" "slope" "entropy" (1557/1000) _
    target_impurity_veg (by rw [show unique (col vegDF "slope")
      = ["steep", "moderate", "flat"] from rfl, stats_slope])]
  norm_num

theorem trace_elev : compGainTrace vegDF "vegetation" "elevation" "entropy"
    = .ok { target_impurity := 1557/1000
            impurity_list := [918/1000, 0, 1, 0]
            weight_list := [429/1000, 143/1000, 286/1000, 143/1000]
            remaining_impurity := 679822/1000000
            information_gain := 877178/1000000 } := by
  rw [trace_ok vegDF "vegetation" "elevation" "entropy" (1557/1000) _
    target_impurity_veg (by rw [show unique (col vegDF "elevation")
      = ["high", "low", "medium", "highest"] from rfl, stats_elev])]
  norm_num

/-! ## Behaviour on empty inputs -/

theorem impurity_nil_entropy : compute_impurity [] "entropy" = .ok 0 := by
  rw [compute_impurity]
  simp only [if_pos rfl]
  norm_num [value_counts, unique, uniqueAux, round3_zero]

theorem impurity_nil_gini : compute_impurity [] "gini" = .ok 1 := by
  rw [compute_impurity]
  simp only [if_neg (by decide : ¬("gini" = "entropy")), if_pos rfl]
  norm_num [value_counts, unique, uniqueAux, round3_one]

theorem gain_nil_entropy (t d : String) :
    comp_feature_information_gain [] t d "entropy" = .ok 0 := by
  rw [comp_gain_ok [] t d "entropy" 0 [] impurity_nil_entropy rfl]
  norm_num

theorem gain_nil_gini (t d : String) :
    comp_feature_information_gain [] t d "gini" = .ok 1 := by
  rw [comp_gain_ok [] t d "gini" 1 [] impurity_nil_gini rfl]
  norm_num

/-! ## Evaluating the small counterexample datasets -/

theorem target_gini_dfC2 : compute_impurity (col dfC2 "t") "gini" = .ok (444/1000) :=
  gini_dist_21 _ "a" "b" rfl rfl

theorem stats_dfC2 : partitionStats dfC2 "t" "d" "gini" ["x", "y"]
    = .ok [(1/2, 667/1000), (0, 333/1000)] := by
  have s2 : partitionStats dfC2 "t" "d" "gini" [] = .ok [] := rfl
  have s1 : partitionStats dfC2 "t" "d" "gini" ["y"] = .ok [(0, 333/1000)] := by
    rw [partitionStats_cons_ok dfC2 "t" "d" "gini" "y" [] 0 []
      ((compute_impurity_const _ "a" (by decide) (by decide)).2) s2]
    rw [show (partitionOf dfC2 "d" "y").length = 1 from rfl,
      show dfC2.length = 3 from rfl, round3_zero]
    norm_num [round3_w13]
  rw [partitionStats_cons_ok dfC2 "t" "d" "gini" "x" ["y"] (1/2) _
    (gini_dist_11 _ "a" "b" rfl rfl) s1]
  rw [show (partitionOf dfC2 "d" "x").length = 2 from rfl,
    show dfC2.length = 3 from rfl, round3_half]
  norm_num [round3_w23]

theorem gain_dfC2 : comp_feature_information_gain dfC2 "t" "d" "gini"
    = .ok (1105/10000) := by
  rw [comp_gain_ok dfC2 "t" "d" "gini" (444/1000) _ target_gini_dfC2
    (by rw [show unique (col dfC2 "d") = ["x", "y"] from rfl, stats_dfC2])]
  norm_num

theorem exact_weights_dfC2 : remainingExactWeights dfC2 "t" "d" "gini" = 1/3 := by
  have hx : round3 (specGini (col (partitionOf dfC2 "d" "x") "t")) = 1/2 := by
    have ha := compute_impurity_gini (col (partitionOf dfC2 "d" "x") "t")
    have hb := gini_dist_11 (col (partitionOf dfC2 "d" "x") "t") "a" "b" rfl rfl
    exact Except.ok.inj (ha.symm.trans hb)
  have hy : round3 (specGini (col (partitionOf dfC2 "d" "y") "t")) = 0 := by
    have ha := compute_impurity_gini (col (partitionOf dfC2 "d" "y") "t")
    have hb := (compute_impurity_const (col (partitionOf dfC2 "d" "y") "t") "a"
      (by decide) (by decide)).2
    exact Except.ok.inj (ha.symm.trans hb)
  rw [remainingExactWeights, show unique (col dfC2 "d") = ["x", "y"] from rfl]
  simp only [List.map_cons, List.map_nil, List.sum_cons, List.sum_nil,
    specImpurity, if_neg (by decide : ¬("gini" = "entropy"))]
  rw [hx, hy, show (partitionOf dfC2 "d" "x").length = 2 from rfl,
    show (partitionOf dfC2 "d" "y").length = 1 from rfl,
    show dfC2.length = 3 from rfl]
  norm_num

theorem stats_dfOne : partitionStats dfOne "t" "d" "entropy" (unique (col dfOne "d"))
    = .ok [(0, 1)] := by
  rw [show unique (col dfOne "d") = ["x"] from rfl]
  rw [partitionStats_cons_ok dfOne "t" "d" "entropy" "x" [] 0 []
    ((compute_impurity_const _ "a" (by decide) (by decide)).1) rfl]
  rw [show (partitionOf dfOne "d" "x").length = 1 from rfl,
    show dfOne.length = 1 from rfl, round3_zero]
  norm_num [round3_one]

theorem target_dfOne : compute_impurity (col dfOne "t") "entropy" = .ok 0 :=
  (compute_impurity_const _ "a" (by decide) (by decide)).1

theorem gain_dfOne : comp_feature_information_gain dfOne "t" "d" "entropy" = .ok 0 := by
  rw [comp_gain_ok dfOne "t" "d" "entropy" 0 _ target_dfOne stats_dfOne]
  norm_num

theorem trace_dfOne : compGainTrace dfOne "t" "d" "entropy"
    = .ok { target_impurity := 0, impurity_list := [0], weight_list := [1],
            remaining_impurity := 0, information_gain := 0 } := by
  rw [trace_ok dfOne "t" "d" "entropy" 0 _ target_dfOne stats_dfOne]
  norm_num

theorem stats_dfTwo : partitionStats dfTwo "t" "d" "entropy" (unique (col dfTwo "d"))
    = .ok [(0, 1/2), (0, 1/2)] := by
  rw [show unique (col dfTwo "d") = ["x", "y"] from rfl]
  have s1 : partitionStats dfTwo "t" "d" "entropy" ["y"] = .ok [(0, 1/2)] := by
    rw [partitionStats_cons_ok dfTwo "t" "d" "entropy" "y" [] 0 []
      ((compute_impurity_const _ "a" (by decide) (by decide)).1) rfl]
    rw [show (partitionOf dfTwo "d" "y").length = 1 from rfl,
      show dfTwo.length = 2 from rfl, round3_zero]
    norm_num [round3_half]
  rw [partitionStats_cons_ok dfTwo "t" "d" "entropy" "x" ["y"] 0 _
    ((compute_impurity_const _ "a" (by decide) (by decide)).1) s1]
  rw [show (partitionOf dfTwo "d" "x").length = 1 from rfl,
    show dfTwo.length = 2 from rfl, round3_zero]
  norm_num [round3_half]

theorem target_dfTwo : compute_impurity (col dfTwo "t") "entropy" = .ok 0 :=
  (compute_impurity_const _ "a" (by decide) (by decide)).1

theorem gain_dfTwo : comp_feature_information_gain dfTwo "t" "d" "entropy" = .ok 0 := by
  rw [comp_gain_ok dfTwo "t" "d" "entropy" 0 _ target_dfTwo stats_dfTwo]
  norm_num

theorem trace_dfTwo : compGainTrace dfTwo "t" "d" "entropy"
    = .ok { target_impurity := 0, impurity_list := [0, 0], weight_list := [1/2, 1/2],
            remaining_impurity := 0, information_gain := 0 } := by
  rw [trace_ok dfTwo "t" "d" "entropy" 0 _ target_dfTwo stats_dfTwo]
  norm_num

theorem zipWith_fst_snd (st : List (ℝ × ℝ)) :
    List.zipWith (fun e w => e * w) (st.map Prod.fst) (st.map Prod.snd)
      = st.map (fun s => s.1 * s.2) := by
  induction st with
  | nil => rfl
  | cons hd tl ih => simp [ih]

/-! ## Splitting on the target attribute itself -/

theorem partition_self_impurity_zero (df : List Row) (t crit : String)
    (hcrit : crit = "entropy" ∨ crit = "gini") (ℓ : Label)
    (hℓ : ℓ ∈ unique (col df t)) :
    compute_impurity (col (partitionOf df t ℓ) t) crit = .ok 0 := by
  have h := compute_impurity_const (col (partitionOf df t ℓ) t) ℓ
    (col_partition_self_ne_nil df t ℓ hℓ) (col_partition_self_all df t ℓ)
  rcases hcrit with h1 | h1 <;> subst h1
  · exact h.1
  · exact h.2

theorem round3_spec_partition_self_zero (df : List Row) (t crit : String)
    (hcrit : crit = "entropy" ∨ crit = "gini") (ℓ : Label)
    (hℓ : ℓ ∈ unique (col df t)) :
    round3 (specImpurity crit (col (partitionOf df t ℓ) t)) = 0 := by
  have ha := compute_impurity_valid (col (partitionOf df t ℓ) t) crit hcrit
  have hb := partition_self_impurity_zero df t crit hcrit ℓ hℓ
  exact Except.ok.inj (ha.symm.trans hb)

theorem remainingRounded_self_zero (df : List Row) (t crit : String)
    (hcrit : crit = "entropy" ∨ crit = "gini") :
    remainingRounded df t t crit = 0 := by
  rw [remainingRounded]
  apply List.sum_eq_zero
  intro x hx
  rw [List.mem_map] at hx
  obtain ⟨ℓ, hℓ, hrfl⟩ := hx
  rw [← hrfl, round3_spec_partition_self_zero df t crit hcrit ℓ hℓ, zero_mul]

/-! # The claims -/

/-- C1: for every non-empty sequence of labels, `compute_impurity` with
criterion `'entropy'` returns the entropy `-Σ pᵢ * log2(pᵢ)` of the
distribution obtained by counting each distinct label and dividing by the
sequence length, and with criterion `'gini'` returns `1 - Σ pᵢ²` over the
same distribution, in both cases rounded to 3 decimal places at the
function boundary. -/
theorem impurity_matches_spec_formulas (feature : List Label) (h : feature ≠ []) :
    compute_impurity feature "entropy" = .ok (round3 (specEntropy feature)) ∧
    compute_impurity feature "gini" = .ok (round3 (specGini feature)) :=
  ⟨compute_impurity_entropy feature, compute_impurity_gini feature⟩

/-- Witness for C1 at the concrete sequence `["a", "a", "b"]`. -/
theorem impurity_matches_spec_formulas_witness :
    (["a", "a", "b"] : List Label) ≠ [] ∧
    (compute_impurity ["a", "a", "b"] "entropy" = .ok (round3 (specEntropy ["a", "a", "b"])) ∧
     compute_impurity ["a", "a", "b"] "gini" = .ok (round3 (specGini ["a", "a", "b"]))) :=
  ⟨by decide, impurity_matches_spec_formulas ["a", "a", "b"] (by decide)⟩

/-- C2 counterexample: the claim says the remaining impurity weights each
partition by the exact ratio `|partition| / |dataset|`, but the source
rounds the weight to 3 decimals first.  On `dfC2` with gini the code
returns `0.444 - 0.5 * 0.667 = 0.1105`, while the claim's formula gives
`0.444 - 0.5 * (2/3) = 0.110666…`. -/
theorem gain_exact_weights_counterexample :
    comp_feature_information_gain dfC2 "t" "d" "gini" = .ok (1105 / 10000) ∧
    round3 (specGini (col dfC2 "t")) - remainingExactWeights dfC2 "t" "d" "gini"
      = 332 / 3000 ∧
    ((1105 : ℝ) / 10000) ≠ 332 / 3000 := by
  refine ⟨gain_dfC2, ?_, by norm_num⟩
  have ht : round3 (specGini (col dfC2 "t")) = 444 / 1000 := by
    have ha := compute_impurity_gini (col dfC2 "t")
    exact Except.ok.inj (ha.symm.trans target_gini_dfC2)
  rw [ht, exact_weights_dfC2]
  norm_num

/-- C2 amended: `comp_feature_information_gain` computes the remaining
impurity as the sum over the distinct levels of the descriptive attribute
of (the 3-decimal-rounded impurity of the target values within that
level's partition) times the **3-decimal-rounded** weight
`round(|partition| / |dataset|, 3)` — not the exact weight — and returns
`gain = target_impurity - remaining_impurity`, where `target_impurity` is
the value `compute_impurity` returns on the whole target column. -/
theorem gain_uses_rounded_weights (df : List Row) (t d crit : String)
    (hdf : df ≠ []) (hcrit : crit = "entropy" ∨ crit = "gini")
    (ht : ∀ r ∈ df, (r.lookup t).isSome) (hd : ∀ r ∈ df, (r.lookup d).isSome)
    (hne : d ≠ t) :
    compute_impurity (col df t) crit = .ok (round3 (specImpurity crit (col df t))) ∧
    comp_feature_information_gain df t d crit =
      .ok (round3 (specImpurity crit (col df t)) -
        ((unique (col df d)).map (fun ℓ =>
          round3 (specImpurity crit (col (partitionOf df d ℓ) t)) *
            round3 (((partitionOf df d ℓ).length : ℝ) / (df.length : ℝ)))).sum) :=
  ⟨compute_impurity_valid _ _ hcrit, by
    rw [gain_formula df t d crit hcrit, remainingRounded]⟩

/-- Witness for C2 (amended) at the one-row dataset `dfOne`. -/
theorem gain_uses_rounded_weights_witness :
    (dfOne ≠ [] ∧ (("entropy" : String) = "entropy" ∨ ("entropy" : String) = "gini") ∧
     (∀ r ∈ dfOne, (r.lookup "t").isSome) ∧ (∀ r ∈ dfOne, (r.lookup "d").isSome) ∧
     ("d" : String) ≠ "t") ∧
    (compute_impurity (col dfOne "t") "entropy"
        = .ok (round3 (specImpurity "entropy" (col dfOne "t"))) ∧
     comp_feature_information_gain dfOne "t" "d" "entropy" =
       .ok (round3 (specImpurity "entropy" (col dfOne "t")) -
         ((unique (col dfOne "d")).map (fun ℓ =>
           round3 (specImpurity "entropy" (col (partitionOf dfOne "d" ℓ) "t")) *
             round3 (((partitionOf dfOne "d" ℓ).length : ℝ) / (dfOne.length : ℝ)))).sum)) :=
  ⟨⟨by decide, Or.inl rfl, by decide, by decide, by decide⟩,
   gain_uses_rounded_weights dfOne "t" "d" "entropy" (by decide) (Or.inl rfl)
     (by decide) (by decide) (by decide)⟩

/-- C3: on the 7-row vegetation dataset, `comp_feature_information_gain`
with target `vegetation` and criterion `entropy` yields
`target_impurity ≈ 1.557`, `remaining_impurity ≈ 0.679` and
`gain ≈ 0.878` for `elevation`, `gain ≈ 0.307` for `stream` and
`gain ≈ 0.578` for `slope` (each `≈` within one unit in the third
decimal), so `elevation` has the highest entropy gain. -/
theorem vegetation_entropy_gains :
    ∃ tr : GainTrace, ∃ gS gL : ℝ,
      compGainTrace vegDF "vegetation" "elevation" "entropy" = .ok tr ∧
      comp_feature_information_gain vegDF "vegetation" "elevation" "entropy"
        = .ok tr.information_gain ∧
      comp_feature_information_gain vegDF "vegetation" "stream" "entropy" = .ok gS ∧
      comp_feature_information_gain vegDF "vegetation" "slope" "entropy" = .ok gL ∧
      approx3 tr.target_impurity (1557 / 1000) ∧
      approx3 tr.remaining_impurity (679 / 1000) ∧
      approx3 tr.information_gain (878 / 1000) ∧
      approx3 gS (307 / 1000) ∧
      approx3 gL (578 / 1000) ∧
      gS < tr.information_gain ∧ gL < tr.information_gain := by
  refine ⟨{ target_impurity := 1557/1000, impurity_list := [918/1000, 0, 1, 0],
            weight_list := [429/1000, 143/1000, 286/1000, 143/1000],
            remaining_impurity := 679822/1000000, information_gain := 877178/1000000 },
          306678/1000000, 578106/1000000,
          trace_elev, gain_elev, gain_stream, gain_slope, ?_, ?_, ?_, ?_, ?_, ?_, ?_⟩
  all_goals norm_num [approx3, abs_lt]

/-- C4 counterexample: `compute_impurity` on the empty sequence does not
fail — for both supported criteria it returns a value (`isOk`), because
`value_counts` of an empty series is an empty distribution and the sums
over it are `0`, so no error path is taken. -/
theorem empty_sequence_returns_ok :
    (compute_impurity [] "entropy").isOk = true ∧
    (compute_impurity [] "gini").isOk = true := by
  rw [impurity_nil_entropy, impurity_nil_gini]
  exact ⟨rfl, rfl⟩

/-- C4 amended: when `compute_impurity` is called with an empty label
sequence it raises no error and returns a number: `0` for `'entropy'`
(printed `-0.0` by Python) and `1` for `'gini'`. -/
theorem empty_sequence_values :
    compute_impurity [] "entropy" = .ok 0 ∧ compute_impurity [] "gini" = .ok 1 :=
  ⟨impurity_nil_entropy, impurity_nil_gini⟩

/-- C5: for every label sequence and every criterion string other than
`'entropy'` and `'gini'`, `compute_impurity` fails — it raises
`ValueError('Unknown impurity criterion')` (the error the spec names
`UnknownCriterionError`) and returns no impurity value. -/
theorem unknown_criterion_raises (feature : List Label) (crit : String)
    (h1 : crit ≠ "entropy") (h2 : crit ≠ "gini") :
    compute_impurity feature crit = .error (.valueError "Unknown impurity criterion") := by
  rw [compute_impurity, if_neg h1, if_neg h2]

/-- Witness for C5 at the spec's own example `compute_impurity(["a","b"], "foo")`. -/
theorem unknown_criterion_raises_witness :
    (("foo" : String) ≠ "entropy" ∧ ("foo" : String) ≠ "gini") ∧
    compute_impurity ["a", "b"] "foo"
      = .error (.valueError "Unknown impurity criterion") :=
  ⟨⟨by decide, by decide⟩,
   unknown_criterion_raises ["a", "b"] "foo" (by decide) (by decide)⟩

/-- C6 counterexample: on a dataset with zero rows
`comp_feature_information_gain` does not fail — for both criteria it
returns a value (`isOk`): the level loop never runs and the target
impurity of the empty column is itself a number. -/
theorem empty_dataset_returns_ok :
    (comp_feature_information_gain [] "vegetation" "elevation" "entropy").isOk = true ∧
    (comp_feature_information_gain [] "vegetation" "elevation" "gini").isOk = true := by
  rw [gain_nil_entropy, gain_nil_gini]
  exact ⟨rfl, rfl⟩

/-- C6 amended: on a dataset with zero rows
`comp_feature_information_gain` raises no error and returns a gain value:
`0` for `'entropy'` and `1` for `'gini'` (the impurity of the empty target
column minus an empty remaining sum). -/
theorem empty_dataset_values (t d : String) :
    comp_feature_information_gain [] t d "entropy" = .ok 0 ∧
    comp_feature_information_gain [] t d "gini" = .ok 1 :=
  ⟨gain_nil_entropy t d, gain_nil_gini t d⟩

/-- C7 counterexample: the value `comp_feature_information_gain` returns
is only the final gain and does not contain (or determine) the per-level
partition impurities and weights: `dfOne` and `dfTwo` have different
per-level weight lists (`[1]` vs `[0.5, 0.5]`) yet the returned results
are identical. -/
theorem gain_return_forgets_weights :
    comp_feature_information_gain dfOne "t" "d" "entropy"
      = comp_feature_information_gain dfTwo "t" "d" "entropy" ∧
    (compGainTrace dfOne "t" "d" "entropy").map GainTrace.weight_list
      ≠ (compGainTrace dfTwo "t" "d" "entropy").map GainTrace.weight_list := by
  constructor
  · rw [gain_dfOne, gain_dfTwo]
  · rw [trace_dfOne, trace_dfTwo]
    simp [Except.map]

/-- C7 amended: `comp_feature_information_gain` computes (and prints) the
target impurity, the ordered per-level partition impurities and weights,
the remaining impurity and the gain — all retained in `compGainTrace` —
but returns only the final gain; the gain is the target impurity minus
the remaining impurity, and the remaining impurity is the pairwise
product-sum of the impurity and weight lists. -/
theorem gain_returns_only_final_gain (df : List Row) (t d c : String) :
    comp_feature_information_gain df t d c
      = (compGainTrace df t d c).map GainTrace.information_gain ∧
    (compGainTrace df t d c).map (fun tr => tr.target_impurity - tr.remaining_impurity)
      = (compGainTrace df t d c).map GainTrace.information_gain ∧
    (compGainTrace df t d c).map (fun tr =>
        (List.zipWith (fun e w => e * w) tr.impurity_list tr.weight_list).sum)
      = (compGainTrace df t d c).map GainTrace.remaining_impurity := by
  refine ⟨comp_eq_trace_map df t d c, ?_, ?_⟩ <;>
  · rw [compGainTrace]
    cases hti : compute_impurity (col df t) c with
    | error e => rfl
    | ok v =>
      cases hps : partitionStats df t d c (unique (col df d)) with
      | error e => rfl
      | ok stats => simp [Except.map, zipWith_fst_snd]

/-- C8 counterexample: `bigList` (3999 `"a"`s and one `"b"`) is not
homogeneous, yet `compute_impurity` with gini returns `0`: the unrounded
gini impurity is `0.000499875`, which the 3-decimal rounding at the
function boundary sends to `0`.  So "returns 0 iff all labels are
identical" fails in the `only if` direction. -/
theorem rounded_gini_zero_heterogeneous :
    ("a" ∈ bigList ∧ "b" ∈ bigList ∧ ("a" : Label) ≠ "b") ∧
    compute_impurity bigList "gini" = .ok 0 := by
  refine ⟨⟨?_, ?_, by decide⟩, gini_bigList⟩
  · rw [bigList]
    exact List.mem_append_left _ (List.mem_replicate.mpr ⟨by norm_num, rfl⟩)
  · rw [bigList]
    exact List.mem_append_right _ (List.mem_cons_self _ _)

/-- C8 amended: for every non-empty label sequence in which all labels are
identical, `compute_impurity` returns `0` for both `'entropy'` and
`'gini'`; the converse direction of the claimed `iff` fails, because the
3-decimal rounding also sends sufficiently small positive impurities to
`0` (see the counterexample). -/
theorem homogeneous_impurity_zero (l : List Label) (a : Label) (hne : l ≠ [])
    (hall : ∀ x ∈ l, x = a) :
    compute_impurity l "entropy" = .ok 0 ∧ compute_impurity l "gini" = .ok 0 :=
  compute_impurity_const l a hne hall

/-- Witness for C8 (amended) at the homogeneous sequence `["c", "c"]`. -/
theorem homogeneous_impurity_zero_witness :
    ((["c", "c"] : List Label) ≠ [] ∧ ∀ x ∈ (["c", "c"] : List Label), x = "c") ∧
    (compute_impurity ["c", "c"] "entropy" = .ok 0 ∧
     compute_impurity ["c", "c"] "gini" = .ok 0) :=
  ⟨⟨by decide, by decide⟩, homogeneous_impurity_zero ["c", "c"] "c" (by decide) (by decide)⟩

/-- C9: for every non-empty dataset and valid attributes, the returned
gain equals `round(target_impurity, 3)` minus the sum over the levels of
`round(partition_impurity, 3) * round(|partition| / |dataset|, 3)` —
partition impurities and weights are each rounded to 3 decimals before
the weighted sum (`remainingRounded`) — and no rounding is applied to the
final difference itself. -/
theorem gain_rounding_discipline (df : List Row) (t d crit : String)
    (hdf : df ≠ []) (hcrit : crit = "entropy" ∨ crit = "gini")
    (ht : ∀ r ∈ df, (r.lookup t).isSome) (hd : ∀ r ∈ df, (r.lookup d).isSome) :
    comp_feature_information_gain df t d crit =
      .ok (round3 (specImpurity crit (col df t)) - remainingRounded df t d crit) :=
  gain_formula df t d crit hcrit

/-- Witness for C9 at the one-row dataset `dfOne` with entropy. -/
theorem gain_rounding_discipline_witness :
    (dfOne ≠ [] ∧ (("entropy" : String) = "entropy" ∨ ("entropy" : String) = "gini") ∧
     (∀ r ∈ dfOne, (r.lookup "t").isSome) ∧ (∀ r ∈ dfOne, (r.lookup "d").isSome)) ∧
    comp_feature_information_gain dfOne "t" "d" "entropy" =
      .ok (round3 (specImpurity "entropy" (col dfOne "t"))
        - remainingRounded dfOne "t" "d" "entropy") :=
  ⟨⟨by decide, Or.inl rfl, by decide, by decide⟩,
   gain_rounding_discipline dfOne "t" "d" "entropy" (by decide) (Or.inl rfl)
     (by decide) (by decide)⟩

/-- C10: splitting on the target attribute itself raises no error: every
partition is homogeneous in the target, every partition impurity is `0`,
the remaining impurity is `0`, and the returned gain equals the (rounded)
impurity of the target column — exactly what `compute_impurity` returns
on it. -/
theorem descriptive_equals_target_gain (df : List Row) (t crit : String)
    (hcrit : crit = "entropy" ∨ crit = "gini") :
    comp_feature_information_gain df t t crit
      = .ok (round3 (specImpurity crit (col df t))) ∧
    comp_feature_information_gain df t t crit = compute_impurity (col df t) crit ∧
    (∀ ℓ ∈ unique (col df t),
      (∀ x ∈ col (partitionOf df t ℓ) t, x = ℓ) ∧
      compute_impurity (col (partitionOf df t ℓ) t) crit = .ok 0) ∧
    remainingRounded df t t crit = 0 := by
  have hrem := remainingRounded_self_zero df t crit hcrit
  have hgain : comp_feature_information_gain df t t crit
      = .ok (round3 (specImpurity crit (col df t))) := by
    rw [gain_formula df t t crit hcrit, hrem, sub_zero]
  refine ⟨hgain, ?_, ?_, hrem⟩
  · rw [hgain, compute_impurity_valid _ _ hcrit]
  · intro ℓ hℓ
    exact ⟨col_partition_self_all df t ℓ, partition_self_impurity_zero df t crit hcrit ℓ hℓ⟩

/-- Witness for C10 at the one-row dataset `dfOne` with entropy. -/
theorem descriptive_equals_target_gain_witness :
    (("entropy" : String) = "entropy" ∨ ("entropy" : String) = "gini") ∧
    (comp_feature_information_gain dfOne "t" "t" "entropy"
        = .ok (round3 (specImpurity "entropy" (col dfOne "t"))) ∧
     comp_feature_information_gain dfOne "t" "t" "entropy"
        = compute_impurity (col dfOne "t") "entropy" ∧
     (∀ ℓ ∈ unique (col dfOne "t"),
       (∀ x ∈ col (partitionOf dfOne "t" ℓ) "t", x = ℓ) ∧
       compute_impurity (col (partitionOf dfOne "t" ℓ) "t") "entropy" = .ok 0) ∧
     remainingRounded dfOne "t" "t" "entropy" = 0) :=
  ⟨Or.inl rfl, descriptive_equals_target_gain dfOne "t" "entropy" (Or.inl rfl)⟩
